import Mathlib

/-!
Verification development for the repolice repository (Rust).

The Rust sources under src/ are shallowly embedded below.  Strings are
modelled as lists of characters (Rust compares strings byte by byte; for
UTF-8 the byte order and the code-point order coincide, so a code-point
lexicographic order is a faithful model).  External effects (the gix
library calls and the git / find subprocesses) are modelled as explicit
inputs: a probe is a function from a repository path to an optional
record, and the raw stdout text of a subprocess is an input of the
function that parses it.  A Rust panic that aborts the surrounding
computation is modelled by the surrounding function returning none.
-/

/-! ## Data model: reader.rs, FileTracker and RepoInfo -/

/-- Embeds struct FileTracker of src/reader.rs: a status label, a count,
and an optional list of file names. -/
structure FileTracker where
  status : List Char
  amount : Nat
  files : Option (List (List Char))
deriving DecidableEq, Repr

/-- Embeds struct RepoInfo of src/reader.rs. -/
structure RepoInfo where
  name : List Char
  branch : List Char
  new_files : FileTracker
  added_files : FileTracker
  modified_files : FileTracker
  deleted_files : FileTracker
deriving DecidableEq, Repr

/-- Embeds RepoInfo::has_changes of src/reader.rs. -/
def RepoInfo.has_changes (r : RepoInfo) : Bool :=
  decide (0 < r.new_files.amount) || decide (0 < r.added_files.amount) ||
    decide (0 < r.modified_files.amount) || decide (0 < r.deleted_files.amount)

/-- Embeds RepoInfo::total_changes of src/reader.rs. -/
def RepoInfo.total_changes (r : RepoInfo) : Nat :=
  r.new_files.amount + r.added_files.amount + r.modified_files.amount +
    r.deleted_files.amount

/-! ## The comparator (reader.rs collect_repos sort and tui.rs sort_repos) -/

/-- Lexicographic comparison of two character lists by code point; this is
the order Rust String::cmp computes (byte-wise comparison of UTF-8 agrees
with code-point order). -/
def cmpName : List Char → List Char → Ordering
  | [], [] => Ordering.eq
  | [], _ :: _ => Ordering.lt
  | _ :: _, [] => Ordering.gt
  | a :: as, b :: bs =>
    match compare a.toNat b.toNat with
    | Ordering.eq => cmpName as bs
    | o => o

/-- Embeds the closure passed to repos.sort_by in Reader::collect_repos
(src/reader.rs lines 118-125). -/
def cmpRepos (a b : RepoInfo) : Ordering :=
  match a.has_changes, b.has_changes with
  | true, false => Ordering.lt
  | false, true => Ordering.gt
  | true, true => compare b.total_changes a.total_changes
  | false, false => cmpName a.name b.name

/-- Embeds the closure passed to self.repos.sort_by in App::sort_repos
(src/tui.rs lines 42-51). -/
def tui_cmp (a b : RepoInfo) : Ordering :=
  match a.has_changes, b.has_changes with
  | true, false => Ordering.lt
  | false, true => Ordering.gt
  | true, true => compare b.total_changes a.total_changes
  | false, false => cmpName a.name b.name

/-- Stable insertion of x into a list already processed: x is placed before
the first element that compares greater than x, hence after every element
comparing less or equal (the placement a stable sort gives). -/
def insert_le (cmp : RepoInfo → RepoInfo → Ordering) (x : RepoInfo) :
    List RepoInfo → List RepoInfo
  | [] => [x]
  | y :: ys =>
    if cmp y x = Ordering.gt then x :: y :: ys else y :: insert_le cmp x ys

/-- Model of Vec::sort_by with comparator cmp: the stable sort by cmp,
realised as left-to-right stable insertion. -/
def sort_by_cmp (cmp : RepoInfo → RepoInfo → Ordering) (l : List RepoInfo) :
    List RepoInfo :=
  l.foldl (fun acc x => insert_le cmp x acc) []

theorem insert_le_perm (cmp : RepoInfo → RepoInfo → Ordering) (x : RepoInfo)
    (l : List RepoInfo) : (insert_le cmp x l).Perm (x :: l) := by
  induction l with
  | nil => simp [insert_le]
  | cons y ys ih =>
    simp only [insert_le]
    split
    · exact List.Perm.refl _
    · exact (ih.cons y).trans (List.Perm.swap x y ys)

theorem sort_by_cmp_perm (cmp : RepoInfo → RepoInfo → Ordering)
    (l : List RepoInfo) : (sort_by_cmp cmp l).Perm l := by
  suffices h : ∀ (l acc : List RepoInfo),
      (l.foldl (fun acc x => insert_le cmp x acc) acc).Perm (acc ++ l) by
    simpa using h l []
  intro l
  induction l with
  | nil => intro acc; simp
  | cons x xs ih =>
    intro acc
    have h1 := ih (insert_le cmp x acc)
    have h2 : (insert_le cmp x acc ++ xs).Perm (acc ++ x :: xs) := by
      have h3 : (insert_le cmp x acc ++ xs).Perm ((x :: acc) ++ xs) :=
        (insert_le_perm cmp x acc).append_right xs
      exact h3.trans List.perm_middle.symm
    exact h1.trans h2

/-! ## Line splitting (Rust str::lines) -/

/-- Splits a character list at every newline, keeping every piece
(including empty ones and a final empty piece after a trailing newline). -/
def splitNL : List Char → List (List Char)
  | [] => [[]]
  | c :: cs =>
    if c = '\n' then [] :: splitNL cs
    else
      match splitNL cs with
      | [] => [[c]]
      | p :: ps => (c :: p) :: ps

/-- Drops one trailing carriage return, as Rust str::lines does per line. -/
def dropTrailCR (l : List Char) : List Char :=
  if l.getLast? = some '\r' then l.dropLast else l

/-- Model of Rust str::lines: split at newlines, drop the final empty piece
produced by a trailing newline, strip one trailing carriage return. -/
def rustLines (s : List Char) : List (List Char) :=
  let ps := splitNL s
  (if ps.getLast? = some [] then ps.dropLast else ps).map dropTrailCR

/-! ## Status-line parsing (reader.rs find_repo_info, lines 160-174) -/

/-- The four change categories of the status parser. -/
inductive Cat where
  | new | added | modified | deleted
deriving DecidableEq, Repr

/-- Embeds the match on the two-character status code in
Reader::find_repo_info (src/reader.rs lines 166-172); the if-chain mirrors
the Rust match arms in order. -/
def classifyCode (code : List Char) : Option Cat :=
  if code = ['?', '?'] then some Cat.new
  else if code = ['A', ' '] ∨ code = ['A', 'M'] then some Cat.added
  else if code = [' ', 'M'] ∨ code = ['M', 'M'] ∨ code = ['M', ' '] then
    some Cat.modified
  else if code = [' ', 'D'] ∨ code = ['D', ' '] then some Cat.deleted
  else none

/-- The four per-category path lists accumulated by the parsing loop. -/
structure StatusLists where
  new : List (List Char)
  added : List (List Char)
  modified : List (List Char)
  deleted : List (List Char)
deriving DecidableEq, Repr

def emptyLists : StatusLists := ⟨[], [], [], []⟩

/-- Embeds one iteration of the parsing loop in Reader::find_repo_info
(src/reader.rs lines 161-174): lines shorter than 3 are skipped, the code
is the first two characters, the path starts at offset 3. -/
def parseLine (ls : StatusLists) (line : List Char) : StatusLists :=
  if 3 ≤ line.length then
    match classifyCode (line.take 2) with
    | some Cat.new => { ls with new := ls.new ++ [line.drop 3] }
    | some Cat.added => { ls with added := ls.added ++ [line.drop 3] }
    | some Cat.modified => { ls with modified := ls.modified ++ [line.drop 3] }
    | some Cat.deleted => { ls with deleted := ls.deleted ++ [line.drop 3] }
    | none => ls
  else ls

/-- Parses a whole porcelain status output, line by line, in order. -/
def parseStatus (out : List Char) : StatusLists :=
  (rustLines out).foldl parseLine emptyLists

/-! ## The probe (reader.rs find_repo_info) -/

/-- The external git state Reader::find_repo_info observes for one
repository: whether gix::open succeeds, the head referent (some (some n)
models Ok with a named referent, some none models Ok with a detached head,
none models Err), the result of repo.is_dirty(), and the stdout of
git -C path status --porcelain (none models a failed invocation). -/
structure GitEnv where
  opens : Bool
  headRef : Option (Option (List Char))
  isDirty : Option Bool
  statusOut : Option (List Char)
deriving DecidableEq, Repr

/-- Embeds full_name.strip_prefix("refs/heads/").unwrap_or(full_name)
(src/reader.rs line 138): drop the 11-character head namespace when
present. -/
def dropHeadsNamespace (full : List Char) : List Char :=
  if "refs/heads/".data <+: full then full.drop 11 else full

/-- Embeds Reader::find_repo_info (src/reader.rs lines 130-198) over an
explicit GitEnv.  A failed gix::open returns none (the Rust ? operator);
a clean or unreadable status yields four empty lists; the record fields
follow the verbose / non-verbose construction of the source exactly. -/
def find_repo_info (env : GitEnv) (repo_name : List Char) (verbose : Bool) :
    Option RepoInfo :=
  if env.opens then
    let branch : List Char :=
      match env.headRef with
      | some (some n) => dropHeadsNamespace n
      | some none => "HEAD".data
      | none => "HEAD".data
    let ls : StatusLists :=
      match env.isDirty with
      | some true =>
        match env.statusOut with
        | some out => parseStatus out
        | none => emptyLists
      | _ => emptyLists
    if verbose then
      some { name := repo_name, branch := branch,
             new_files := ⟨"New".data, ls.new.length, some ls.new⟩,
             added_files := ⟨"Added".data, ls.added.length, some ls.added⟩,
             modified_files :=
               ⟨"Modified".data, ls.modified.length, some ls.modified⟩,
             deleted_files :=
               ⟨"Deleted".data, ls.deleted.length, some ls.deleted⟩ }
    else
      some { name := repo_name, branch := branch,
             new_files := ⟨"??".data, ls.new.length, none⟩,
             added_files := ⟨"A".data, ls.added.length, none⟩,
             modified_files := ⟨"M".data, ls.modified.length, none⟩,
             deleted_files := ⟨"D".data, ls.deleted.length, none⟩ }
  else none

/-! ## Collector (reader.rs collect_repos and stream_repos) -/

/-- Runs the probe over every discovered path in order, as the loop of
Reader::collect_repos does (src/reader.rs lines 107-115): each worker
calls find_repo_info(...).unwrap() and the main thread unwraps the join,
so the first failing probe panics the whole run; the panic is modelled by
returning none.  The probe argument abstracts the per-path composition of
name extraction and find_repo_info over that path's git state. -/
def probe_all (probe : List Char → Option RepoInfo) :
    List (List Char) → Option (List RepoInfo)
  | [] => some []
  | p :: ps =>
    match probe p with
    | none => none
    | some r =>
      match probe_all probe ps with
      | none => none
      | some rs => some (r :: rs)

/-- Embeds Reader::collect_repos (src/reader.rs lines 102-128): probe every
path, then sort with the comparator; a probe failure aborts the run. -/
def collect_repos (probe : List Char → Option RepoInfo)
    (repo_list : List (List Char)) : Option (List RepoInfo) :=
  (probe_all probe repo_list).map (sort_by_cmp cmpRepos)

/-- The multiset of records Reader::stream_repos sends on the channel
(src/reader.rs lines 65-99): each worker sends its record only when
find_repo_info returned Some (the if-let), so failed probes are skipped
and the siblings continue.  Arrival order is arbitrary; any permutation of
this list is a possible arrival order. -/
def stream_repos_sent (probe : List Char → Option RepoInfo)
    (paths : List (List Char)) : List RepoInfo :=
  paths.filterMap probe

theorem probe_all_eq_filterMap (probe : List Char → Option RepoInfo)
    (paths : List (List Char)) (rs : List RepoInfo)
    (h : probe_all probe paths = some rs) : paths.filterMap probe = rs := by
  induction paths generalizing rs with
  | nil => simp [probe_all] at h; simp [h]
  | cons p ps ih =>
    simp only [probe_all] at h
    cases hp : probe p with
    | none => rw [hp] at h; cases h
    | some r =>
      rw [hp] at h
      cases hq : probe_all probe ps with
      | none => rw [hq] at h; cases h
      | some rs2 =>
        rw [hq] at h
        cases h
        simp [List.filterMap_cons, hp, ih rs2 hq]

/-! ## Dashboard state (tui.rs App) -/

/-- Embeds struct App of src/tui.rs. -/
structure App where
  repos : List RepoInfo
  verbose : Bool
  scroll_offset : Nat
  loading : Bool
  total_found : Nat
  clean_scroll_offset : Nat
deriving DecidableEq, Repr

/-- Embeds App::new (src/tui.rs lines 52-61). -/
def App.new (verbose : Bool) : App :=
  { repos := [], verbose := verbose, scroll_offset := 0, loading := true,
    total_found := 0, clean_scroll_offset := 0 }

/-- Embeds App::sort_repos (src/tui.rs lines 42-51). -/
def App.sort_repos (a : App) : App :=
  { a with repos := sort_by_cmp tui_cmp a.repos }

/-- Embeds App::add_repo (src/tui.rs lines 32-36): push, re-sort, update
the found counter. -/
def App.add_repo (a : App) (r : RepoInfo) : App :=
  let pushed := { a with repos := a.repos ++ [r] }
  let sorted := pushed.sort_repos
  { sorted with total_found := sorted.repos.length }

/-- Embeds App::set_loading_complete (src/tui.rs lines 38-40). -/
def App.set_loading_complete (a : App) : App :=
  { a with loading := false }

/-- The changed-repository sublist used by the scroll and layout code
(src/tui.rs line 64 and line 197). -/
def repos_with_changes (rs : List RepoInfo) : List RepoInfo :=
  rs.filter (fun r => r.has_changes)

/-- The row count of the changed-repository grid
(src/tui.rs line 65: (len + cols - 1) / cols). -/
def total_rows (rs : List RepoInfo) (cols : Nat) : Nat :=
  ((repos_with_changes rs).length + cols - 1) / cols

/-- The estimated viewport height in rows
(src/tui.rs line 67: (available_height / 6).max(1)). -/
def estimated_visible_rows (avail : Nat) : Nat :=
  max (avail / 6) 1

/-- Embeds App::scroll_down (src/tui.rs lines 63-72). -/
def App.scroll_down (a : App) (cols avail : Nat) : App :=
  if a.scroll_offset + estimated_visible_rows avail < total_rows a.repos cols
  then { a with scroll_offset := a.scroll_offset + 1 }
  else a

/-- Embeds App::scroll_up (src/tui.rs lines 74-78). -/
def App.scroll_up (a : App) : App :=
  if 0 < a.scroll_offset then { a with scroll_offset := a.scroll_offset - 1 }
  else a

/-! ## Printer (printer.rs) -/

/-- Decimal digits of a number, as Rust Display for usize prints it. -/
def natChars (n : Nat) : List Char :=
  (Nat.repr n).data

/-- Embeds Printer::formatted_list (src/printer.rs lines 51-55). -/
def formatted_list (l : List (List Char)) : List (List Char) :=
  l.map (fun item => "| _ ".data ++ item)

/-- Embeds Printer::get_verbose_format (src/printer.rs lines 27-49): a
category title is printed whenever the optional file list is present
(is_some), regardless of the list being empty. -/
def get_verbose_format (r : RepoInfo) : List (List Char) :=
  if r.has_changes then
    (match r.new_files.files with
     | some l => "New".data :: formatted_list l
     | none => []) ++
    (match r.added_files.files with
     | some l => "Added".data :: formatted_list l
     | none => []) ++
    (match r.modified_files.files with
     | some l => "Modified".data :: formatted_list l
     | none => []) ++
    (match r.deleted_files.files with
     | some l => "Deleted".data :: formatted_list l
     | none => [])
  else ["Nothing new!".data]

/-- The header line both branches of Printer::print_repos print. -/
def repo_header (r : RepoInfo) : List Char :=
  "| ".data ++ r.name ++ ": [".data ++ r.branch ++ "]".data

/-- The compact summary line of the non-verbose branch. -/
def summary_line (r : RepoInfo) : List Char :=
  "| ?".data ++ natChars r.new_files.amount ++
    " | +".data ++ natChars r.added_files.amount ++
    " | ~".data ++ natChars r.modified_files.amount ++
    " | -".data ++ natChars r.deleted_files.amount ++ " |".data

/-- Embeds Printer::print_repos (src/printer.rs lines 8-25) as the list of
printed lines: records without changes produce no output at all. -/
def print_repos (repos : List RepoInfo) (verbose : Bool) : List (List Char) :=
  (repos.map (fun r =>
    if r.has_changes then
      repo_header r ::
        (if verbose then get_verbose_format r else [summary_line r])
    else [])).flatten

/-! ## Discovery (reader.rs get_repos) -/

/-- The pattern the source removes from the find output. -/
def gitPat : List Char := ['/', '.', 'g', 'i', 't']

/-- Model of Rust String::replace for a nonempty pattern: scan left to
right, at each position consume the leftmost match and emit the
replacement, never rescanning the replacement.  (The source only calls it
with the nonempty pattern "/.git".) -/
def rustReplace (s pat rep : List Char) : List Char :=
  match s with
  | [] => []
  | c :: cs =>
    if h : pat ≠ [] ∧ pat <+: (c :: cs) then
      rep ++ rustReplace ((c :: cs).drop pat.length) pat rep
    else
      c :: rustReplace cs pat rep
termination_by s.length
decreasing_by
  · simp only [List.length_drop, List.length_cons]
    have h1 : 0 < pat.length := List.length_pos.mpr h.1
    omega
  · simp only [List.length_cons]
    omega

/-- Embeds Reader::get_repos (src/reader.rs lines 51-61) over the stdout
text of the find command: replace "/.git" by the empty string in the whole
output, then split into lines. -/
def get_repos (findOutput : List Char) : List (List Char) :=
  rustLines (rustReplace findOutput gitPat [])

/-- The deletion the source's replace call performs, written as the claim
describes it: delete every occurrence of the five characters "/.git",
anywhere in the text, scanning left to right. -/
def deleteGitOcc : List Char → List Char
  | '/' :: '.' :: 'g' :: 'i' :: 't' :: rest => deleteGitOcc rest
  | c :: rest => c :: deleteGitOcc rest
  | [] => []

theorem rustReplace_nil (pat rep : List Char) : rustReplace [] pat rep = [] := by
  unfold rustReplace
  rfl

theorem rustReplace_cons (c : Char) (cs pat rep : List Char) :
    rustReplace (c :: cs) pat rep =
      if pat ≠ [] ∧ pat <+: (c :: cs) then
        rep ++ rustReplace ((c :: cs).drop pat.length) pat rep
      else c :: rustReplace cs pat rep := by
  conv_lhs => unfold rustReplace
  split <;> rfl

theorem deleteGitOcc_cons (c : Char) (cs : List Char)
    (h : ¬ gitPat <+: (c :: cs)) :
    deleteGitOcc (c :: cs) = c :: deleteGitOcc cs := by
  rw [deleteGitOcc.eq_def]
  split
  · rename_i rest heq
    exfalso
    apply h
    rw [heq]
    exact ⟨rest, rfl⟩
  · simp_all
  · simp_all

theorem rustReplace_gitPat_aux (n : Nat) :
    ∀ s : List Char, s.length ≤ n →
      rustReplace s gitPat [] = deleteGitOcc s := by
  induction n with
  | zero =>
    intro s hs
    have hnil : s = [] := List.eq_nil_of_length_eq_zero (Nat.le_zero.mp hs)
    subst hnil
    rw [rustReplace_nil]
    rfl
  | succ n ih =>
    intro s hs
    rcases s with _ | ⟨c, cs⟩
    · rw [rustReplace_nil]
      rfl
    · rw [rustReplace_cons]
      by_cases hp : gitPat <+: (c :: cs)
      · rw [if_pos ⟨by simp [gitPat], hp⟩, List.nil_append]
        obtain ⟨rest, hrest⟩ := hp
        have hc := congrArg List.length hrest
        simp [gitPat] at hc
        rw [← hrest, List.drop_left]
        have hdel : deleteGitOcc (gitPat ++ rest) = deleteGitOcc rest := rfl
        rw [hdel]
        exact ih rest (by simp at hs; omega)
      · rw [if_neg (fun hcon => hp hcon.2), deleteGitOcc_cons c cs hp]
        rw [ih cs (by simp at hs; omega)]

theorem rustReplace_gitPat (s : List Char) :
    rustReplace s gitPat [] = deleteGitOcc s :=
  rustReplace_gitPat_aux s.length s (Nat.le_refl _)

/-! ## Comparator algebra -/

theorem nat_compare_self (n : Nat) : compare n n = Ordering.eq := by
  simp [Nat.compare_def_lt]

theorem nat_compare_swap (m n : Nat) : compare m n = (compare n m).swap := by
  rw [Nat.compare_def_lt, Nat.compare_def_lt]
  split_ifs <;> first | rfl | omega

theorem cmpName_self (l : List Char) : cmpName l l = Ordering.eq := by
  induction l with
  | nil => rfl
  | cons x xs ih => simp [cmpName, nat_compare_self, ih]

theorem cmpName_swap (a b : List Char) : cmpName a b = (cmpName b a).swap := by
  induction a generalizing b with
  | nil => cases b <;> rfl
  | cons x xs ih =>
    cases b with
    | nil => rfl
    | cons y ys =>
      have h2 : compare y.toNat x.toNat = (compare x.toNat y.toNat).swap :=
        nat_compare_swap y.toNat x.toNat
      rcases h : compare x.toNat y.toNat with _ | _ | _ <;>
        (rw [h] at h2; simp [cmpName, h, h2, ih ys, Ordering.swap])

theorem cmpRepos_self (a : RepoInfo) : cmpRepos a a = Ordering.eq := by
  unfold cmpRepos
  cases a.has_changes <;> simp [nat_compare_self, cmpName_self]

theorem cmpRepos_swap (a b : RepoInfo) : cmpRepos a b = (cmpRepos b a).swap := by
  unfold cmpRepos
  cases ha : a.has_changes <;> cases hb : b.has_changes
  · exact cmpName_swap a.name b.name
  · rfl
  · rfl
  · exact nat_compare_swap b.total_changes a.total_changes

/-! ## Sample records -/

/-- A tracker with no file list, as the non-verbose probe builds them. -/
def ft_plain (status : List Char) (n : Nat) : FileTracker := ⟨status, n, none⟩

/-- A changed record named a with one new file and nothing else. -/
def repoTieA : RepoInfo :=
  ⟨['a'], "main".data, ft_plain "??".data 1, ft_plain "A".data 0,
    ft_plain "M".data 0, ft_plain "D".data 0⟩

/-- A changed record named b with one new file and nothing else: same
total_changes as repoTieA, larger name. -/
def repoTieB : RepoInfo :=
  ⟨['b'], "main".data, ft_plain "??".data 1, ft_plain "A".data 0,
    ft_plain "M".data 0, ft_plain "D".data 0⟩

/-- A record with no changes at all. -/
def repoClean : RepoInfo :=
  ⟨['c'], "dev".data, ft_plain "??".data 0, ft_plain "A".data 0,
    ft_plain "M".data 0, ft_plain "D".data 0⟩

/-! ## Claim C1 -/

/-- Claim C1 counterexample: the claim says that among two changed records
with equal total_changes the tie is broken by name ascending, so the
comparator should return lt on repoTieA versus repoTieB (both changed,
equal totals, name a before name b); the source comparator returns eq
instead (the (true, true) arm compares only the totals). -/
theorem c1_counterexample :
    repoTieA.has_changes = true ∧ repoTieB.has_changes = true ∧
    repoTieA.total_changes = repoTieB.total_changes ∧
    cmpName repoTieA.name repoTieB.name = Ordering.lt ∧
    cmpRepos repoTieA repoTieB = Ordering.eq ∧
    cmpRepos repoTieA repoTieB ≠ Ordering.lt := by
  decide

/-- Claim C1, amended: the comparator, identical in the batch sorter of
reader.rs and the streaming sorter of tui.rs, is a total preorder
(reflexive, and antisymmetric under Ordering.swap): a changed record sorts
strictly before an unchanged one; among two changed records the one with
larger total_changes sorts first, and equal totals compare equal (there is
no name tiebreak, so the stable sort keeps such records in arrival order);
among two unchanged records the order is by name ascending. -/
theorem c1_comparator (a b : RepoInfo) :
    (a.has_changes = true → b.has_changes = false →
      cmpRepos a b = Ordering.lt) ∧
    (a.has_changes = false → b.has_changes = true →
      cmpRepos a b = Ordering.gt) ∧
    (a.has_changes = true → b.has_changes = true →
      cmpRepos a b = compare b.total_changes a.total_changes) ∧
    (a.has_changes = true → b.has_changes = true →
      a.total_changes = b.total_changes → cmpRepos a b = Ordering.eq) ∧
    (a.has_changes = false → b.has_changes = false →
      cmpRepos a b = cmpName a.name b.name) ∧
    tui_cmp a b = cmpRepos a b ∧
    cmpRepos a a = Ordering.eq ∧
    cmpRepos a b = (cmpRepos b a).swap := by
  refine ⟨?_, ?_, ?_, ?_, ?_, rfl, cmpRepos_self a, cmpRepos_swap a b⟩
  · intro h1 h2; simp [cmpRepos, h1, h2]
  · intro h1 h2; simp [cmpRepos, h1, h2]
  · intro h1 h2; simp [cmpRepos, h1, h2]
  · intro h1 h2 h3; simp [cmpRepos, h1, h2, h3, nat_compare_self]
  · intro h1 h2; simp [cmpRepos, h1, h2]

/-- Claim C1 witness: the amended comparator clauses instantiated on a
changed record against a clean one. -/
theorem c1_comparator_witness : cmpRepos repoTieA repoClean = Ordering.lt :=
  (c1_comparator repoTieA repoClean).1 (by decide) (by decide)

/-! ## Claim C9 -/

/-- Claim C9: for every RepoInfo, total_changes is zero exactly when
has_changes is false; both are computed from the same four amounts. -/
theorem c9_total_changes_iff (r : RepoInfo) :
    r.total_changes = 0 ↔ r.has_changes = false := by
  simp [RepoInfo.total_changes, RepoInfo.has_changes]

/-! ## Claim C2 -/

/-- Claim C2 counterexample: the claim says code " A" (A in the right
column) yields Added, "M" in either column yields Modified and "D" in
either column yields Deleted; the source match recognises only the exact
pairs "A ", "AM", " M", "MM", "M ", " D", "D ", so " A", "MD" and "AD"
contribute to no category, and a full " A"-coded line leaves all four
lists unchanged. -/
theorem c2_counterexample :
    classifyCode [' ', 'A'] = none ∧
    classifyCode [' ', 'A'] ≠ some Cat.added ∧
    classifyCode ['M', 'D'] = none ∧
    classifyCode ['A', 'D'] = none ∧
    parseLine emptyLists [' ', 'A', ' ', 'f'] = emptyLists := by
  decide

/-- Claim C2, amended: for every status line made of a two-character code,
a separator byte and a path, the parser appends the path to exactly the
category of its code and touches nothing on an unrecognised code, where
the recognised codes are exactly: "??" for New; "A " or "AM" for Added;
" M", "MM" or "M " for Modified; " D" or "D " for Deleted. -/
theorem c2_parse_table (a b sep : Char) (path : List Char)
    (ls : StatusLists) :
    (classifyCode [a, b] = some Cat.new →
      parseLine ls (a :: b :: sep :: path) =
        { ls with new := ls.new ++ [path] }) ∧
    (classifyCode [a, b] = some Cat.added →
      parseLine ls (a :: b :: sep :: path) =
        { ls with added := ls.added ++ [path] }) ∧
    (classifyCode [a, b] = some Cat.modified →
      parseLine ls (a :: b :: sep :: path) =
        { ls with modified := ls.modified ++ [path] }) ∧
    (classifyCode [a, b] = some Cat.deleted →
      parseLine ls (a :: b :: sep :: path) =
        { ls with deleted := ls.deleted ++ [path] }) ∧
    (classifyCode [a, b] = none →
      parseLine ls (a :: b :: sep :: path) = ls) ∧
    (classifyCode [a, b] = some Cat.new ↔ [a, b] = ['?', '?']) ∧
    (classifyCode [a, b] = some Cat.added ↔
      ([a, b] = ['A', ' '] ∨ [a, b] = ['A', 'M'])) ∧
    (classifyCode [a, b] = some Cat.modified ↔
      ([a, b] = [' ', 'M'] ∨ [a, b] = ['M', 'M'] ∨ [a, b] = ['M', ' '])) ∧
    (classifyCode [a, b] = some Cat.deleted ↔
      ([a, b] = [' ', 'D'] ∨ [a, b] = ['D', ' '])) := by
  have htake : (a :: b :: sep :: path).take 2 = [a, b] := rfl
  have hdrop : (a :: b :: sep :: path).drop 3 = path := rfl
  have hlen : 3 ≤ (a :: b :: sep :: path).length := by
    simp [List.length_cons]
  refine ⟨?_, ?_, ?_, ?_, ?_, ?_, ?_, ?_, ?_⟩
  · intro h; simp [parseLine, hlen, htake, hdrop, h]
  · intro h; simp [parseLine, hlen, htake, hdrop, h]
  · intro h; simp [parseLine, hlen, htake, hdrop, h]
  · intro h; simp [parseLine, hlen, htake, hdrop, h]
  · intro h; simp [parseLine, hlen, htake, hdrop, h]
  · constructor
    · intro h
      simp only [classifyCode] at h
      split_ifs at h <;> simp_all
    · intro h
      rw [h]; decide
  · constructor
    · intro h
      simp only [classifyCode] at h
      split_ifs at h <;> simp_all
    · intro h
      rcases h with h | h <;> (rw [h]; decide)
  · constructor
    · intro h
      simp only [classifyCode] at h
      split_ifs at h <;> simp_all
    · intro h
      rcases h with h | h | h <;> (rw [h]; decide)
  · constructor
    · intro h
      simp only [classifyCode] at h
      split_ifs at h <;> simp_all
    · intro h
      rcases h with h | h <;> (rw [h]; decide)

/-- Claim C2 witness: the amended parse table instantiated on the line
"?? f": exactly one entry is appended to the New list. -/
theorem c2_parse_table_witness :
    parseLine emptyLists ['?', '?', ' ', 'f'] =
      { emptyLists with new := emptyLists.new ++ [['f']] } :=
  (c2_parse_table '?' '?' ' ' ['f'] emptyLists).1 (by decide)

/-! ## Claim C5 -/

/-- A git environment: open succeeds, head is refs/heads/main, the tree is
dirty and the porcelain output is one untracked file a. -/
def envDirtyOneNew : GitEnv :=
  ⟨true, some (some "refs/heads/main".data), some true, some "?? a\n".data⟩

/-- The record the non-verbose probe builds in envDirtyOneNew. -/
def repoNonVerbose : RepoInfo :=
  ⟨['r'], "main".data, ⟨"??".data, 1, none⟩, ⟨"A".data, 0, none⟩,
    ⟨"M".data, 0, none⟩, ⟨"D".data, 0, none⟩⟩

/-- Claim C5 counterexample: the claim says the count is 0 whenever the
optional file list is absent or empty; with verbosity disabled the probe
stores no file list but keeps the real count, so a record with one new
file has files = none and amount = 1. -/
theorem c5_counterexample :
    find_repo_info envDirtyOneNew ['r'] false = some repoNonVerbose ∧
    repoNonVerbose.new_files.files = none ∧
    repoNonVerbose.new_files.amount = 1 := by
  decide

/-- Claim C5, amended: every record find_repo_info constructs satisfies:
with verbosity enabled each category carries its file list and the count
equals that list's length (so the count is 0 exactly when the list is
empty); with verbosity disabled the file list is always absent while the
count still carries the category count, which may be nonzero. -/
theorem c5_tracker_invariant (env : GitEnv) (nm : List Char)
    (verbose : Bool) (r : RepoInfo)
    (h : find_repo_info env nm verbose = some r) :
    (verbose = true →
      (∃ l, r.new_files.files = some l ∧ r.new_files.amount = l.length) ∧
      (∃ l, r.added_files.files = some l ∧ r.added_files.amount = l.length) ∧
      (∃ l, r.modified_files.files = some l ∧
        r.modified_files.amount = l.length) ∧
      (∃ l, r.deleted_files.files = some l ∧
        r.deleted_files.amount = l.length)) ∧
    (verbose = false →
      r.new_files.files = none ∧ r.added_files.files = none ∧
      r.modified_files.files = none ∧ r.deleted_files.files = none) := by
  cases ho : env.opens
  · rw [find_repo_info, ho] at h
    simp at h
  · cases verbose
    · rw [find_repo_info, ho] at h
      simp only [if_true, Bool.false_eq_true, if_false] at h
      injection h with h2
      subst h2
      exact ⟨fun hv => by simp at hv, fun _ => ⟨rfl, rfl, rfl, rfl⟩⟩
    · rw [find_repo_info, ho] at h
      simp only [if_true] at h
      injection h with h2
      subst h2
      exact ⟨fun _ => ⟨⟨_, rfl, rfl⟩, ⟨_, rfl, rfl⟩, ⟨_, rfl, rfl⟩,
        ⟨_, rfl, rfl⟩⟩, fun hv => by simp at hv⟩

/-- Claim C5 witness: the amended invariant instantiated on the concrete
non-verbose probe run of envDirtyOneNew. -/
theorem c5_tracker_invariant_witness :
    repoNonVerbose.new_files.files = none :=
  ((c5_tracker_invariant envDirtyOneNew ['r'] false repoNonVerbose
    (by decide)).2 rfl).1

/-! ## Claim C3 -/

def pathA : List Char := "/x/a".data

def pathB : List Char := "/x/b".data

/-- The probe behaviour of the failing scenario of spec section 8: probing
/x/a fails (its metadata folder vanished between discovery and probing, so
gix::open returns Err and find_repo_info returns None), probing /x/b
succeeds. -/
def probeOneFails : List Char → Option RepoInfo :=
  fun p => if p = pathB then some repoTieB else none

/-- Claim C3 evaluation at the failing input: with one failing and one
succeeding probe, batch collect_repos unwraps the failed probe and panics
(modelled as none: no records at all, the surviving repository /x/b
included), while streaming sends the surviving record and continues; the
claim requires the batch run to keep the records of every repository whose
probe succeeded. -/
theorem c3_batch_abort :
    collect_repos probeOneFails [pathA, pathB] = none ∧
    stream_repos_sent probeOneFails [pathA, pathB] = [repoTieB] := by
  decide

/-! ## Claim C4 -/

theorem foldl_add_repo_perm (arr : List RepoInfo) (a : App) :
    ((arr.foldl App.add_repo a).repos).Perm (a.repos ++ arr) := by
  induction arr generalizing a with
  | nil => simp
  | cons r rs ih =>
    have h1 := ih (a.add_repo r)
    have h2 : (a.add_repo r).repos.Perm (a.repos ++ [r]) := by
      simp only [App.add_repo, App.sort_repos]
      exact sort_by_cmp_perm tui_cmp (a.repos ++ [r])
    have h3 : ((a.add_repo r).repos ++ rs).Perm ((a.repos ++ [r]) ++ rs) :=
      h2.append_right rs
    have h4 : (a.repos ++ [r]) ++ rs = a.repos ++ (r :: rs) := by simp
    rw [List.foldl_cons]
    exact h1.trans (h4 ▸ h3)

/-- Claim C4: whenever the batch collector returns a record list for an
input (probe behaviour and discovered paths), then for every possible
arrival order of the streamed records (any permutation of what the workers
send), the record list the dashboard has accumulated through add_repo
after the stream closes is a permutation of the batch result: the same
records with the same field values, differing at most in order. -/
theorem c4_stream_batch (probe : List Char → Option RepoInfo)
    (paths : List (List Char)) (verbose : Bool)
    (out arrival : List RepoInfo)
    (hc : collect_repos probe paths = some out)
    (ha : arrival.Perm (stream_repos_sent probe paths)) :
    ((arrival.foldl App.add_repo (App.new verbose)).repos).Perm out := by
  unfold collect_repos at hc
  cases hp : probe_all probe paths with
  | none => rw [hp] at hc; simp at hc
  | some rs =>
    rw [hp] at hc
    simp only [Option.map_some'] at hc
    injection hc with hc2
    have hfold : ((arrival.foldl App.add_repo (App.new verbose)).repos).Perm
        arrival := by
      simpa [App.new] using foldl_add_repo_perm arrival (App.new verbose)
    have hsent : stream_repos_sent probe paths = rs :=
      probe_all_eq_filterMap probe paths rs hp
    have hout : out.Perm rs := hc2 ▸ sort_by_cmp_perm cmpRepos rs
    exact hfold.trans ((hsent ▸ ha).trans hout.symm)

/-- The probe behaviour of the witness scenario: both paths succeed. -/
def probeTwoGood : List Char → Option RepoInfo :=
  fun p => if p = pathA then some repoTieA
    else if p = pathB then some repoClean else none

/-- Claim C4 witness: the equivalence instantiated on two concrete
repositories streamed in reversed arrival order. -/
theorem c4_stream_batch_witness :
    (([repoClean, repoTieA].foldl App.add_repo (App.new false)).repos).Perm
      [repoTieA, repoClean] :=
  c4_stream_batch probeTwoGood [pathA, pathB] false [repoTieA, repoClean]
    [repoClean, repoTieA] (by decide) (by decide)

/-! ## Claim C6 -/

/-- A verbose-mode record with one new file: the three other categories
carry present but empty lists, exactly as the verbose probe builds them. -/
def repoVerboseOneNew : RepoInfo :=
  ⟨['a'], ['m'], ⟨"New".data, 1, some [['f']]⟩, ⟨"Added".data, 0, some []⟩,
    ⟨"Modified".data, 0, some []⟩, ⟨"Deleted".data, 0, some []⟩⟩

/-- A verbose-mode record with no changes at all. -/
def repoVerboseClean : RepoInfo :=
  ⟨['b'], ['d'], ⟨"New".data, 0, some []⟩, ⟨"Added".data, 0, some []⟩,
    ⟨"Modified".data, 0, some []⟩, ⟨"Deleted".data, 0, some []⟩⟩

/-- Claim C6 evaluation at the failing input: printing a changed record
(one new file, empty other categories) followed by an unchanged record in
verbose mode emits the Added, Modified and Deleted titles although those
categories have zero entries (the source tests files.is_some, never
emptiness, against its own comment print only if there are matches), and
emits no block at all for the unchanged record (print_repos skips records
without changes, so the "Nothing new!" branch is unreachable), where the
claim requires zero-entry categories to be omitted and an explicit block
for the unchanged record. -/
theorem c6_printer_eval :
    print_repos [repoVerboseOneNew, repoVerboseClean] true =
      ["| a: [m]".data, "New".data, "| _ f".data,
       "Added".data, "Modified".data, "Deleted".data] ∧
    repoVerboseClean.has_changes = false := by
  decide

/-! ## Claim C7 -/

/-- A subprocess invocation: program name and argument list. -/
structure GitQuery where
  program : List Char
  args : List (List Char)
deriving DecidableEq, Repr

/-- The subprocess queries Reader::find_repo_info issues for one
repository (src/reader.rs lines 152-157): only when the tree is dirty, one
git invocation carrying the repository path explicitly through -C.  (The
gix calls of the same function also receive the path explicitly, as
gix::open(path).) -/
def reader_probe_queries (path : List Char) (dirty : Bool) : List GitQuery :=
  if dirty then
    [⟨"git".data, ["-C".data, path, "status".data, "--porcelain".data]⟩]
  else []

/-- The process-wide current working directory after a find_repo_info
probe, as a function of the directory before it: the function contains no
set_current_dir call, so the state is returned unchanged. -/
def reader_probe_cwd (cwd : List Char) : List Char := cwd

/-- The subprocess queries one worker of collect_repo_info in src/main.rs
issues (lines 103-110): git status --short and git branch --show-current,
neither carrying the repository path as an argument. -/
def mainrs_probe_queries : List GitQuery :=
  [⟨"git".data, ["status".data, "--short".data]⟩,
   ⟨"git".data, ["branch".data, "--show-current".data]⟩]

/-- The process-wide current working directory after one worker of
collect_repo_info in src/main.rs probes one repository: line 100 asserts
env::set_current_dir(path), and nothing restores the previous value. -/
def mainrs_probe_cwd (path _cwd : List Char) : List Char := path

/-- The current working directory after the whole collect_repo_info loop
of src/main.rs. -/
def mainrs_collect_cwd (paths : List (List Char)) (cwd : List Char) :
    List Char :=
  paths.foldl (fun c p => mainrs_probe_cwd p c) cwd

/-- Claim C7 counterexample: the claim says the process-wide current
working directory is unchanged after every probe; the probe of src/main.rs
collect_repo_info sets it to the probed repository path and never restores
it, so after probing /x/a from /home the directory is /x/a, not /home. -/
theorem c7_counterexample :
    mainrs_probe_cwd pathA "/home".data ≠ "/home".data ∧
    mainrs_collect_cwd [pathA] "/home".data ≠ "/home".data := by
  decide

/-- Claim C7, amended: the redesigned probe (Reader::find_repo_info in
src/reader.rs) passes the repository path explicitly to every subprocess
query it issues and leaves the process-wide current working directory
unchanged; the legacy probe of src/main.rs collect_repo_info instead sets
the process-wide directory to each probed repository path (its queries
carry no path argument), so it mutates process-global state. -/
theorem c7_probe_frame (path : List Char) (dirty : Bool) (cwd : List Char) :
    (∀ q ∈ reader_probe_queries path dirty, path ∈ q.args) ∧
    reader_probe_cwd cwd = cwd ∧
    mainrs_probe_cwd path cwd = path := by
  refine ⟨?_, rfl, rfl⟩
  intro q hq
  cases dirty
  · simp [reader_probe_queries] at hq
  · simp only [reader_probe_queries, if_true, List.mem_singleton] at hq
    subst hq
    simp

/-- Claim C7 witness: the amended statement instantiated on the dirty
probe of /x/a: the one query issued carries the path. -/
theorem c7_probe_frame_witness :
    pathA ∈ (GitQuery.mk "git".data
      ["-C".data, pathA, "status".data, "--porcelain".data]).args :=
  (c7_probe_frame pathA true "/home".data).1 _ (by decide)

/-! ## Claim C8 -/

/-- Claim C8: for every dashboard state, a scroll-down event increments
the row offset exactly when unseen rows remain below the estimated
viewport (offset plus visible rows less than the total row count of the
changed grid) and leaves it unchanged otherwise; a scroll-up event leaves
a zero offset at zero and otherwise decrements by one row, so the offset
never goes below zero. -/
theorem c8_scroll_clamped (a : App) (cols avail : Nat) (hcols : 0 < cols) :
    (a.scroll_offset + estimated_visible_rows avail <
        total_rows a.repos cols →
      (a.scroll_down cols avail).scroll_offset = a.scroll_offset + 1) ∧
    (¬ a.scroll_offset + estimated_visible_rows avail <
        total_rows a.repos cols →
      (a.scroll_down cols avail).scroll_offset = a.scroll_offset) ∧
    (a.scroll_offset = 0 → a.scroll_up.scroll_offset = 0) ∧
    (0 < a.scroll_offset →
      a.scroll_up.scroll_offset = a.scroll_offset - 1) ∧
    0 ≤ a.scroll_up.scroll_offset := by
  refine ⟨?_, ?_, ?_, ?_, Nat.zero_le _⟩
  · intro h; simp [App.scroll_down, h]
  · intro h; simp [App.scroll_down, h]
  · intro h; simp [App.scroll_up, h]
  · intro h; simp [App.scroll_up, h]

/-- A dashboard holding two changed repositories. -/
def appTwoChanged : App :=
  { repos := [repoTieA, repoTieB], verbose := false, scroll_offset := 0,
    loading := false, total_found := 2, clean_scroll_offset := 0 }

/-- Claim C8 witness: with one column, zero available height and two
changed rows, a scroll-down from offset zero advances one row. -/
theorem c8_scroll_clamped_witness :
    (appTwoChanged.scroll_down 1 0).scroll_offset =
      appTwoChanged.scroll_offset + 1 :=
  (c8_scroll_clamped appTwoChanged 1 0 (by decide)).1 (by decide)

/-! ## Claim C10 -/

/-- Claim C10: get_repos returns the lines of the find output after
deleting every occurrence of the substring "/.git" anywhere in the whole
text, not only a trailing metadata-folder segment; consequently a
repository whose ancestor path contains "/.git" as a substring (here a
parent directory named .github) is returned with that substring removed
from its path, not with its true path. -/
theorem c10_get_repos_global_delete :
    (∀ findOutput : List Char,
      get_repos findOutput = rustLines (deleteGitOcc findOutput)) ∧
    get_repos "/home/x/.github/repo/.git\n".data =
      ["/home/xhub/repo".data] ∧
    get_repos "/home/x/.github/repo/.git\n".data ≠
      ["/home/x/.github/repo".data] := by
  have huniv : ∀ findOutput : List Char,
      get_repos findOutput = rustLines (deleteGitOcc findOutput) := by
    intro s
    unfold get_repos
    rw [rustReplace_gitPat]
  refine ⟨huniv, ?_, ?_⟩
  · rw [huniv]
    decide
  · rw [huniv]
    decide
